import Mathlib

/-!
# Verification of the future-compass ingestion-to-retrieval pipeline

Shallow embedding of the RAG pipeline of this repository:
semantic chunk hashing and linking (`shared/data_processing/text_processing/text_chunker.py`
and `shared/rag/document_chunker.py`), chunk embedding and idempotent indexing
(`shared/data_processing/text_processing/chunk_embedder.py`), the Elasticsearch
query handler (`shared/rag/es_query_handler.py`) and the context assembler
(`shared/ai_tools/openai_agents/ts_rag_collector.py`).

Machine-level collaborators (the SHA-256 digest of `hashlib`, Python string
primitives) are embedded as executable Lean functions so that every hash
equality or inequality appearing in a theorem is genuinely computed.
External services (embedding model, translator, language detector, the
Elasticsearch backend itself) are modelled as explicit environment records,
with the semantics the spec gives for them; exceptions are modelled with
`Except`.
-/

namespace FutureCompass

/-! ## SHA-256 (hashlib.sha256(... .encode("utf-8")).hexdigest())

A complete, executable embedding of SHA-256 over `Nat`, operating on the
UTF-8 bytes of a string and emitting the lowercase hex digest, exactly as
`hashlib.sha256(data.encode("utf-8")).hexdigest()` does. -/

set_option maxRecDepth 100000 in
/-- 2^32, the modulus of all SHA-256 word arithmetic. -/
def m32 : Nat := 4294967296

/-- Addition modulo 2^32. -/
def add32 (a b : Nat) : Nat := (a + b) % m32

/-- Right rotation of a 32-bit word by `n` bits. -/
def rotr32 (n x : Nat) : Nat := ((x >>> n) ||| (x <<< (32 - n))) % m32

/-- Bitwise complement of a 32-bit word. -/
def not32 (x : Nat) : Nat := x ^^^ 4294967295

/-- The 64 SHA-256 round constants (FIPS 180-4, rendered in decimal). -/
def shaK : List Nat :=
  [1116352408, 1899447441, 3049323471, 3921009573, 961987163,
   1508970993, 2453635748, 2870763221, 3624381080, 310598401,
   607225278, 1426881987, 1925078388, 2162078206, 2614888103,
   3248222580, 3835390401, 4022224774, 264347078, 604807628,
   770255983, 1249150122, 1555081692, 1996064986, 2554220882,
   2821834349, 2952996808, 3210313671, 3336571891, 3584528711,
   113926993, 338241895, 666307205, 773529912, 1294757372,
   1396182291, 1695183700, 1986661051, 2177026350, 2456956037,
   2730485921, 2820302411, 3259730800, 3345764771, 3516065817,
   3600352804, 4094571909, 275423344, 430227734, 506948616,
   659060556, 883997877, 958139571, 1322822218, 1537002063,
   1747873779, 1955562222, 2024104815, 2227730452, 2361852424,
   2428436474, 2756734187, 3204031479, 3329325298]

/-- The SHA-256 initial hash value (FIPS 180-4, rendered in decimal). -/
def shaH0 : List Nat :=
  [1779033703, 3144134277, 1013904242, 2773480762, 1359893119,
   2600822924, 528734635, 1541459225]

/-- Big-endian 8-byte encoding of the bit length, the tail of SHA-256 padding. -/
def lengthBytes (n : Nat) : List Nat :=
  (List.range 8).map (fun i => (n >>> ((7 - i) * 8)) % 256)

/-- SHA-256 padding: append 0x80, zero bytes up to 56 mod 64, then the
64-bit big-endian message bit length. -/
def padMessage (msg : List Nat) : List Nat :=
  let len := msg.length
  let zeros := (55 + 64 - len % 64) % 64
  msg ++ [0x80] ++ List.replicate zeros 0 ++ lengthBytes (len * 8)

/-- Fold groups of four big-endian bytes into 32-bit words. -/
def bytesToWords : List Nat → List Nat
  | b0 :: b1 :: b2 :: b3 :: rest => (((b0 * 256 + b1) * 256 + b2) * 256 + b3) :: bytesToWords rest
  | _ => []

/-- Split a padded message into 64-byte blocks (`n` = number of blocks). -/
def splitBlocks : Nat → List Nat → List (List Nat)
  | 0, _ => []
  | n + 1, l => l.take 64 :: splitBlocks n (l.drop 64)

/-- Extend the 16-word block schedule by `n` further words. -/
def extendSchedule : Nat → List Nat → List Nat
  | 0, acc => acc
  | n + 1, acc =>
    let i := acc.length
    let w15 := acc.getD (i - 15) 0
    let w2 := acc.getD (i - 2) 0
    let w16 := acc.getD (i - 16) 0
    let w7 := acc.getD (i - 7) 0
    let s0 := (rotr32 7 w15) ^^^ (rotr32 18 w15) ^^^ (w15 >>> 3)
    let s1 := (rotr32 17 w2) ^^^ (rotr32 19 w2) ^^^ (w2 >>> 10)
    extendSchedule n (acc ++ [(w16 + s0 + w7 + s1) % m32])

/-- The eight working variables of the SHA-256 compression function. -/
structure ShaState where
  va : Nat
  vb : Nat
  vc : Nat
  vd : Nat
  ve : Nat
  vf : Nat
  vg : Nat
  vh : Nat

/-- One round of the SHA-256 compression function. -/
def shaRound (st : ShaState) (ki wi : Nat) : ShaState :=
  let s1 := (rotr32 6 st.ve) ^^^ (rotr32 11 st.ve) ^^^ (rotr32 25 st.ve)
  let ch := (st.ve &&& st.vf) ^^^ ((not32 st.ve) &&& st.vg)
  let temp1 := (st.vh + s1 + ch + ki + wi) % m32
  let s0 := (rotr32 2 st.va) ^^^ (rotr32 13 st.va) ^^^ (rotr32 22 st.va)
  let maj := (st.va &&& st.vb) ^^^ (st.va &&& st.vc) ^^^ (st.vb &&& st.vc)
  let temp2 := (s0 + maj) % m32
  { va := (temp1 + temp2) % m32, vb := st.va, vc := st.vb, vd := st.vc,
    ve := (st.vd + temp1) % m32, vf := st.ve, vg := st.vf, vh := st.vg }

/-- Compress one 64-byte block into the running hash value. -/
def compressBlock (hs : List Nat) (block : List Nat) : List Nat :=
  let ws := extendSchedule 48 (bytesToWords block)
  let init : ShaState :=
    { va := hs.getD 0 0, vb := hs.getD 1 0, vc := hs.getD 2 0, vd := hs.getD 3 0,
      ve := hs.getD 4 0, vf := hs.getD 5 0, vg := hs.getD 6 0, vh := hs.getD 7 0 }
  let fin := (shaK.zip ws).foldl (fun st p => shaRound st p.1 p.2) init
  [add32 (hs.getD 0 0) fin.va, add32 (hs.getD 1 0) fin.vb,
   add32 (hs.getD 2 0) fin.vc, add32 (hs.getD 3 0) fin.vd,
   add32 (hs.getD 4 0) fin.ve, add32 (hs.getD 5 0) fin.vf,
   add32 (hs.getD 6 0) fin.vg, add32 (hs.getD 7 0) fin.vh]

/-- SHA-256 digest of a byte sequence, as eight 32-bit words. -/
def sha256Words (msg : List Nat) : List Nat :=
  let padded := padMessage msg
  (splitBlocks (padded.length / 64) padded).foldl compressBlock shaH0

/-- Lowercase hex digit. -/
def hexChar (n : Nat) : Char :=
  if n < 10 then Char.ofNat (48 + n) else Char.ofNat (87 + n)

/-- Lowercase hex rendering of a 32-bit word (8 digits). -/
def wordToHex (w : Nat) : List Char :=
  (List.range 8).map (fun i => hexChar ((w >>> ((7 - i) * 4)) % 16))

/-- UTF-8 encoding of one character, as `str.encode("utf-8")` produces it. -/
def utf8Bytes (c : Char) : List Nat :=
  let n := c.toNat
  if n < 0x80 then [n]
  else if n < 0x800 then [0xC0 ||| (n >>> 6), 0x80 ||| (n &&& 0x3F)]
  else if n < 0x10000 then
    [0xE0 ||| (n >>> 12), 0x80 ||| ((n >>> 6) &&& 0x3F), 0x80 ||| (n &&& 0x3F)]
  else
    [0xF0 ||| (n >>> 18), 0x80 ||| ((n >>> 12) &&& 0x3F),
     0x80 ||| ((n >>> 6) &&& 0x3F), 0x80 ||| (n &&& 0x3F)]

/-- UTF-8 byte sequence of a string. -/
def strBytes (s : String) : List Nat := s.toList.flatMap utf8Bytes

/-- `hashlib.sha256(s.encode("utf-8")).hexdigest()`: the lowercase hex
SHA-256 digest of the UTF-8 bytes of `s`. -/
def sha256Hex (s : String) : String :=
  String.mk ((sha256Words (strBytes s)).flatMap wordToHex)

/-! ## Python string primitives

Executable embeddings of the Python `str` operations the pipeline uses:
`split()` (whitespace split discarding empty fields), `lower()`,
`strip(chars)` and `strip()`. -/

/-- Accumulating pass behind `pySplit`: collect maximal non-whitespace runs. -/
def splitWsAux : List Char → List Char → List String
  | [], cur => if cur.isEmpty then [] else [String.mk cur.reverse]
  | c :: rest, cur =>
    if c.isWhitespace then
      if cur.isEmpty then splitWsAux rest []
      else String.mk cur.reverse :: splitWsAux rest []
    else splitWsAux rest (c :: cur)

/-- `s.split()`: split on whitespace runs, discarding empty fields. -/
def pySplit (s : String) : List String := splitWsAux s.toList []

/-- `s.lower()` (ASCII case folding, which is all the pipeline feeds it). -/
def pyLower (s : String) : String := String.mk (s.toList.map Char.toLower)

/-- Core of `str.strip`: drop the given characters from both ends. -/
def stripCharsList (cs : List Char) (l : List Char) : List Char :=
  ((l.dropWhile (fun c => cs.contains c)).reverse.dropWhile (fun c => cs.contains c)).reverse

/-- `s.strip(chars)`. -/
def pyStrip (cs : List Char) (s : String) : String :=
  String.mk (stripCharsList cs s.toList)

/-- `s.strip()`: strip whitespace from both ends. -/
def pyStripWs (s : String) : String :=
  String.mk (((s.toList.dropWhile Char.isWhitespace).reverse.dropWhile Char.isWhitespace).reverse)

/-! ## TextChunker (`shared/data_processing/text_processing/text_chunker.py`)

The semantic splitter itself is the external `semantic_text_splitter`
library; the chunk texts it produces are therefore the input here, and the
embedding covers everything `get_document_chunks` computes from them:
per-chunk hash, prev/next links and sequence numbers. -/

/-- A `DocumentChunk` as built by `TextChunker.get_document_chunks`
(`shared/schemas/document.py`): boundary links are `None`, embedded as
`Option.none`. -/
structure DocumentChunk where
  documentId : String
  text : String
  prevChunkHash : Option String
  nextChunkHash : Option String
  hash : String
  chunkSequence : Nat
deriving Repr, DecidableEq

/-- Placeholder chunk used as the `List.getD` default in statements. -/
def dummyChunk : DocumentChunk :=
  { documentId := "", text := "", prevChunkHash := none, nextChunkHash := none,
    hash := "", chunkSequence := 0 }

/-- `TextChunker.generate_chunk_hash`: the SHA-256 hex digest of the chunk
text alone. -/
def generateChunkHash (chunkText : String) : String := sha256Hex chunkText

/-- `TextChunker.get_document_chunks`, given the list of chunk texts the
splitter returned: link each chunk to the hashes of its neighbours and
record its 0-based sequence. -/
def getDocumentChunks (documentId : String) (chunks : List String) : List DocumentChunk :=
  (List.range chunks.length).map (fun index =>
    { documentId := documentId
      text := chunks.getD index ""
      prevChunkHash :=
        if index = 0 then none else some (generateChunkHash (chunks.getD (index - 1) ""))
      nextChunkHash :=
        if index = chunks.length - 1 then none
        else some (generateChunkHash (chunks.getD (index + 1) ""))
      hash := generateChunkHash (chunks.getD index "")
      chunkSequence := index })

/-! ## RAG indexer chunk metadata (`shared/rag/document_chunker.py`)

`process_document` (lines 394-414) builds one metadata record per retained
chunk.  Note the source: `chunk_hash` hashes `f"{doc.document_id}:{idx}:{chunk}"`
while `prev_chunk_hash` and `next_chunk_hash` hash only
`f"{doc.document_id}:{idx-1}"` / `f"{doc.document_id}:{idx+1}"`, without the
neighbouring chunk text. -/

/-- One Elasticsearch chunk record as assembled by `process_document`
(fields `embedding`, `source_page` and `processed_at` carry no logic and are
omitted). -/
structure ChunkMeta where
  chunkText : String
  chunkHash : String
  prevChunkHash : String
  nextChunkHash : String
  chunkSequence : Nat
  documentId : String
  agentIds : List String
  tokenCount : Nat
  language : String
deriving Repr, DecidableEq

/-- Placeholder record used as the `List.getD` default in statements. -/
def dummyMeta : ChunkMeta :=
  { chunkText := "", chunkHash := "", prevChunkHash := "", nextChunkHash := "",
    chunkSequence := 0, documentId := "", agentIds := [], tokenCount := 0, language := "" }

/-- The chunk-metadata loop of `process_document`
(`shared/rag/document_chunker.py:397-414`). -/
def buildChunkMetas (documentId agentId language : String) (chunks : List String) :
    List ChunkMeta :=
  (List.range chunks.length).map (fun idx =>
    { chunkText := chunks.getD idx ""
      chunkHash := sha256Hex (documentId ++ ":" ++ Nat.repr idx ++ ":" ++ chunks.getD idx "")
      prevChunkHash :=
        if 0 < idx then sha256Hex (documentId ++ ":" ++ Nat.repr (idx - 1)) else ""
      nextChunkHash :=
        if idx < chunks.length - 1 then sha256Hex (documentId ++ ":" ++ Nat.repr (idx + 1))
        else ""
      chunkSequence := idx
      documentId := documentId
      agentIds := [agentId]
      tokenCount := (pySplit (chunks.getD idx "")).length
      language := language })

/-! ## ChunkEmbedder (`shared/data_processing/text_processing/chunk_embedder.py`)

`index_chunk` embeds a chunk and writes it to Elasticsearch with
`id=chunk.hash` and `op_type="create"`; a `ConflictError` is passed over,
any other failure appends the chunk to `failed_chunks`.  The index is
embedded as an association list keyed by record id, the embedding model and
non-conflict backend failures as an environment.  The `asyncio.gather`
batch is embedded as a sequential fold: each `index_chunk` call touches a
distinct record id or is a no-op, so the order does not affect the index
contents the claims are about. -/

/-- The record body `index_chunk` writes (the `embedding` vector and the
`processed_at` timestamp carry no logic for the claims and are omitted). -/
structure EsIndexDoc where
  text : String
  documentId : String
  chunkSequence : Nat
  prevChunkHash : Option String
  nextChunkHash : Option String
  hash : String
deriving Repr, DecidableEq

/-- Mutable state of a `ChunkEmbedder` run: the Elasticsearch index keyed
by record id, and `self.failed_chunks`. -/
structure EmbedderState where
  esIndex : List (String × EsIndexDoc)
  failedChunks : List DocumentChunk
deriving Repr, DecidableEq

/-- Fresh embedder against an empty index. -/
def initialEmbedderState : EmbedderState := { esIndex := [], failedChunks := [] }

/-- External collaborators of `ChunkEmbedder`: the embedding model (vector
entries abstracted to `Int`), and whether the backend fails a given write
with a non-conflict error. -/
structure EmbedderEnv where
  embedText : String → Except Unit (List Int)
  writeFails : String → Bool

/-- `ChunkEmbedder.index_chunk`: embed, then create-only write under
`id = chunk.hash`; an id conflict is passed over, an embedding failure or a
non-conflict write failure appends the chunk to `failed_chunks`. -/
def indexChunk (env : EmbedderEnv) (st : EmbedderState) (chunk : DocumentChunk) :
    EmbedderState :=
  match env.embedText chunk.text with
  | .error _ => { st with failedChunks := st.failedChunks ++ [chunk] }
  | .ok _ =>
    if (st.esIndex.lookup chunk.hash).isSome then st
    else if env.writeFails chunk.hash then
      { st with failedChunks := st.failedChunks ++ [chunk] }
    else
      { st with esIndex := st.esIndex ++ [(chunk.hash,
          { text := chunk.text, documentId := chunk.documentId,
            chunkSequence := chunk.chunkSequence, prevChunkHash := chunk.prevChunkHash,
            nextChunkHash := chunk.nextChunkHash, hash := chunk.hash })] }

/-- One embed-and-store pass of `embed_and_store_chunks` over a chunk list. -/
def embedPass (env : EmbedderEnv) (st : EmbedderState) (chunks : List DocumentChunk) :
    EmbedderState :=
  chunks.foldl (indexChunk env) st

/-! ## ContextAssembler (`shared/ai_tools/openai_agents/ts_rag_collector.py`)
and the query handler (`shared/rag/es_query_handler.py`)

Python exceptions are embedded as `Except Unit`; every external
collaborator (database document lookup, language detector, translator,
Elasticsearch backend, tokenizer) is a field of `CollectorEnv`.  The
Elasticsearch execution semantics (score every record, apply the term
filters, return the `top_k` by descending score) is modelled from the spec,
since the backend itself is an external service; the query *construction* —
in particular which metadata filter keys become term clauses — is embedded
from `ElasticsearchQueryHandler.search_and_filter`. -/

/-- A record of the RAG index as the collector reads it (the `_source` of a
hit): the field names of the records written by
`document_chunker.process_document`.  Absent or `None` link fields are
embedded as `""`, which is exactly what the collector treats as falsy. -/
structure EsRecord where
  chunkHash : String
  chunkText : String
  documentId : String
  prevChunkHash : String
  nextChunkHash : String
  chunkSequence : Nat
  agentIds : List String
deriving Repr, DecidableEq

/-- An Elasticsearch hit; the collector only ever reads its `_source`. -/
structure Hit where
  source : EsRecord
deriving Repr, DecidableEq

/-- A `Document` row as the collector uses it. -/
structure Doc where
  documentId : String
  documentTitle : String
  mainLanguage : String
deriving Repr, DecidableEq

/-- External collaborators of `TsRAGCollector.run`.  `esCall` is the
outcome of reaching the Elasticsearch backend inside `search_and_filter`
(embedding the query and executing the search); `score` is the similarity
score `cosineSimilarity(query_embedding, record.embedding) + 1.0` the
backend computes, abstracted as an integer-valued function of the query
text and the record, since the vectors live outside the repository. -/
structure CollectorEnv where
  agentId : String
  fetchDocs : Except Unit (List Doc)
  detect : String → Except Unit String
  getTranslatedString : String → String → Except Unit String
  esCall : Except Unit Unit
  esIndex : List EsRecord
  score : String → EsRecord → Int
  getById : String → Except Unit Hit
  numTokens : String → Nat

/-- The trivial-acknowledgment set of `_needs_rag`. -/
def simplePhrases : List String := ["thanks", "thank you", "okay", "hi", "hello"]

/-- `TsRAGCollector._needs_rag`: no RAG for empty or very short queries
(fewer than 4 whitespace-separated words), nor when the lowercased query
stripped of `" .,!"` is a trivial phrase. -/
def needsRag (query : String) : Bool :=
  if query = "" ∨ (pySplit query).length < 4 then false
  else if simplePhrases.contains (pyStrip [' ', '.', ',', '!'] (pyLower query)) then false
  else true

/-- One part of a message payload (`part.get("type")`, `part.get("text", "")`). -/
structure ContentPart where
  partType : String
  text : String
deriving Repr, DecidableEq

/-- One entry of the conversation payload handed to `run`. -/
structure Message where
  msgType : String
  role : String
  content : List ContentPart
deriving Repr, DecidableEq

/-- `TsRAGCollector._latest_user_query`: scan from the end for the last
user message and concatenate its text parts, stripped. -/
def latestUserQuery (messages : List Message) : String :=
  match messages.reverse.find? (fun m => m.msgType = "message" && m.role = "user") with
  | some m =>
    pyStripWs (String.join ((m.content.filter (fun p => p.partType = "text")).map (fun p => p.text)))
  | none => ""

/-- Keys of a `collections.Counter` in first-insertion order. -/
def firstOccKeys (xs : List String) : List String :=
  xs.foldl (fun acc x => if acc.contains x then acc else acc ++ [x]) []

/-- `Counter(xs).most_common(1)[0][0]`: the most frequent element, ties
resolved in favour of the first-encountered key. -/
def mostCommon1 (xs : List String) : String :=
  match firstOccKeys xs with
  | [] => ""
  | k :: ks => ks.foldl (fun best k2 => if xs.count best < xs.count k2 then k2 else best) k

/-- `TsRAGCollector._dominant_language`. -/
def dominantLanguage (docs : List Doc) : Option String :=
  if docs.isEmpty then none
  else some (mostCommon1 (docs.map (fun d => d.mainLanguage)))

/-- `TsRAGCollector._maybe_translate`: a detector failure falls back to the
detected language `"en"`; if the detected language equals the target the
text is returned unmodified, otherwise the translator is called — and a
translator failure propagates as an exception. -/
def maybeTranslate (env : CollectorEnv) (text targetLang : String) :
    Except Unit (String × Bool) :=
  let detected := match env.detect text with | .ok l => l | .error _ => "en"
  if detected = targetLang then Except.ok (text, false)
  else (env.getTranslatedString text targetLang).map (fun t => (t, true))

/-- The filter-key whitelist of `search_and_filter`
(`shared/rag/es_query_handler.py:109`): only these metadata keys become
term clauses; every other key — `agent_id` included — is silently dropped. -/
def keywordFields : List String := ["document_id", "prev_chunk_hash", "next_chunk_hash", "hash"]

/-- Whether a record matches one term clause.  The RAG-index records have
no top-level `hash` field (the field is named `chunk_hash`), so a term
clause on `hash` matches nothing. -/
def termMatches (r : EsRecord) (key value : String) : Bool :=
  if key = "document_id" then r.documentId = value
  else if key = "prev_chunk_hash" then r.prevChunkHash = value
  else if key = "next_chunk_hash" then r.nextChunkHash = value
  else false

/-- Stable insertion into a descending-by-score list (Elasticsearch ranks
hits by score descending, ties in index-native stable order). -/
def insertByScore (score : EsRecord → Int) (r : EsRecord) : List EsRecord → List EsRecord
  | [] => [r]
  | x :: xs => if score x < score r then r :: x :: xs else x :: insertByScore score r xs

/-- Rank records by descending score, stably. -/
def sortByScoreDesc (score : EsRecord → Int) (l : List EsRecord) : List EsRecord :=
  l.foldl (fun acc r => insertByScore score r acc) []

/-- `ElasticsearchQueryHandler.search_and_filter`: any exception while
embedding the query or calling the backend is caught and `[]` returned;
otherwise the metadata filters are whitelisted into term clauses and the
backend returns the `top_k` matching records by descending score
(execution semantics modelled from the spec, the backend being external). -/
def searchAndFilter (env : CollectorEnv) (queryText : String)
    (metadataFilters : List (String × String)) (topK : Nat) : List Hit :=
  match env.esCall with
  | .error _ => []
  | .ok _ =>
    let filterClauses := metadataFilters.filter (fun kv => keywordFields.contains kv.1)
    let eligible :=
      env.esIndex.filter (fun r => filterClauses.all (fun kv => termMatches r kv.1 kv.2))
    ((sortByScoreDesc (env.score queryText) eligible).take topK).map (fun r => { source := r })

/-- `TsRAGCollector.TOP_K`. -/
def TOP_K : Nat := 5

/-- `TsRAGCollector.MAX_TOKENS`. -/
def MAX_TOKENS : Nat := 1000

/-- `TsRAGCollector._es_search`: semantic search filtered (as far as the
handler allows) by `agent_id`. -/
def esSearch (env : CollectorEnv) (queryText : String) : List Hit :=
  searchAndFilter env queryText [("agent_id", env.agentId)] TOP_K

/-- The `selected` map of `_expand_chunks_to_token_budget`: an
insertion-ordered dictionary keyed by chunk hash. -/
abbrev Selected := List (String × EsRecord)

/-- `TsRAGCollector._fetch_chunk_by_hash`: a point lookup whose exceptions
(not-found included) are caught, yielding `None`.  The lookup itself,
`get_by_id`, is modelled from the spec: direct retrieval of a single chunk
record by its id. -/
def fetchChunkByHash (env : CollectorEnv) (chunkHash : String) : Option EsRecord :=
  match env.getById chunkHash with
  | .ok hit => some hit.source
  | .error _ => none

/-- `add_chunk`: ignore `None`, insert an unseen chunk under its hash. -/
def addChunk (selected : Selected) (c : Option EsRecord) : Selected :=
  match c with
  | none => selected
  | some c =>
    if (selected.lookup c.chunkHash).isSome then selected
    else selected ++ [(c.chunkHash, c)]

/-- `total_tokens()`: tokenizer count summed over the selected chunks. -/
def totalTokens (env : CollectorEnv) (selected : Selected) : Nat :=
  (selected.map (fun p => env.numTokens p.2.chunkText)).sum

/-- The first loop of `_expand_chunks_to_token_budget`: add every primary
hit unconditionally. -/
def addPrimaries (selected : Selected) : List Hit → Selected
  | [] => selected
  | hit :: rest => addPrimaries (addChunk selected (some hit.source)) rest

/-- One neighbour attempt: only a truthy (non-empty) hash is followed, and
only while the running total is under `MAX_TOKENS`. -/
def processNeighbour (env : CollectorEnv) (selected : Selected) (neighbourHash : String) :
    Selected :=
  if neighbourHash ≠ "" ∧ totalTokens env selected < MAX_TOKENS then
    addChunk selected (fetchChunkByHash env neighbourHash)
  else selected

/-- The expansion loop of `_expand_chunks_to_token_budget`: per primary
hit, in rank order, stop outright at budget, otherwise try the two
immediate neighbours. -/
def expandLoop (env : CollectorEnv) : List Hit → Selected → Selected
  | [], selected => selected
  | hit :: rest, selected =>
    if MAX_TOKENS ≤ totalTokens env selected then selected
    else
      expandLoop env rest
        (processNeighbour env (processNeighbour env selected hit.source.prevChunkHash)
          hit.source.nextChunkHash)

/-- The `selected` map after `_expand_chunks_to_token_budget` finishes
expanding (before grouping). -/
def expandSelected (env : CollectorEnv) (primaryHits : List Hit) : Selected :=
  expandLoop env primaryHits (addPrimaries [] primaryHits)

/-- Document ids of the selection in first-encounter order (the iteration
order of the `defaultdict` groups). -/
def groupOrder (selected : Selected) : List String :=
  selected.foldl
    (fun acc p => if acc.contains p.2.documentId then acc else acc ++ [p.2.documentId]) []

/-- Stable insertion into an ascending-by-sequence list (`list.sort` with
`key=chunk_sequence` is stable). -/
def insertBySeq (r : EsRecord) : List EsRecord → List EsRecord
  | [] => [r]
  | x :: xs => if r.chunkSequence < x.chunkSequence then r :: x :: xs else x :: insertBySeq r xs

/-- Sort a group by ascending `chunk_sequence`, stably. -/
def sortBySeq (l : List EsRecord) : List EsRecord :=
  l.foldl (fun acc r => insertBySeq r acc) []

/-- `_expand_chunks_to_token_budget`, end to end: expand, group by
`document_id` in first-encounter order, sort each group by sequence and
flatten. -/
def expandChunksToTokenBudget (env : CollectorEnv) (primaryHits : List Hit) : List EsRecord :=
  let selected := expandSelected env primaryHits
  (groupOrder selected).flatMap (fun docId =>
    sortBySeq ((selected.map Prod.snd).filter (fun r => r.documentId = docId)))

/-- The instruction line opening the prompt. -/
def promptHeader : String :=
  "The following reference chunks have been retrieved for the user’s inquiry. **You must ground your answer primarily in these chunks.** Feel free to use normal knowledge to connect them, but *do not* hallucinate details outside the provided books.\n"

/-- The closing instruction of the prompt. -/
def promptFooter : String :=
  "\nWhen answering, **explicitly reference** the above chunks where appropriate, and take into account the broader context of each source book."

/-- The chunk loop of `_build_prompt`: a book header on each document
change, then the numbered chunk delimiters.  When a chunk belongs to a
document that is not in `documents_by_id` the source evaluates
`None.document_title`, which raises — embedded as `Except.error`. -/
def buildPromptGo (docsById : List (String × Doc)) :
    List EsRecord → Option String → Nat → Except Unit (List String)
  | [], _, _ => Except.ok []
  | c :: rest, currentDoc, counter =>
    let headerStep : Except Unit (List String × Option String) :=
      if currentDoc = some c.documentId then Except.ok ([], currentDoc)
      else
        match docsById.lookup c.documentId with
        | none => Except.error ()
        | some d => Except.ok (["\n### Book: " ++ d.documentTitle ++ "\n"], some c.documentId)
    match headerStep with
    | .error e => Except.error e
    | .ok (hdr, newCurrent) =>
      match buildPromptGo docsById rest newCurrent (counter + 1) with
      | .error e => Except.error e
      | .ok restLines =>
        Except.ok (hdr ++ ["--- chunk " ++ Nat.repr counter ++ " ---",
                           pyStripWs c.chunkText,
                           "--- end chunk " ++ Nat.repr counter ++ " ---\n"] ++ restLines)

/-- `TsRAGCollector._build_prompt`. -/
def buildPrompt (chunks : List EsRecord) (docsById : List (String × Doc)) :
    Except Unit String :=
  (buildPromptGo docsById chunks none 1).map
    (fun body => String.intercalate "\n" (promptHeader :: (body ++ [promptFooter])))

/-- The response record of `run` (its `usage` and `function_calls` are
constant empties in the source and carry no logic). -/
structure BaseAgentRunResponse where
  response : String
deriving Repr, DecidableEq

/-- The no-context response. -/
def emptyResponse : BaseAgentRunResponse := { response := "" }

/-- The body of `TsRAGCollector.run`, before its top-level `try/except`:
extract the query, bail out early without RAG, fetch documents, align the
language, search, expand, build the prompt.  Any uncaught step failure is
an `Except.error`. -/
def runInner (env : CollectorEnv) (userInput : List Message) :
    Except Unit BaseAgentRunResponse :=
  let queryText := latestUserQuery userInput
  if !needsRag queryText then Except.ok emptyResponse
  else
    match env.fetchDocs with
    | .error e => Except.error e
    | .ok docs =>
      if docs.isEmpty then Except.ok emptyResponse
      else
        let domLang := (dominantLanguage docs).getD ""
        match maybeTranslate env queryText domLang with
        | .error e => Except.error e
        | .ok (translatedQuery, _) =>
          let hits := esSearch env translatedQuery
          if hits.isEmpty then Except.ok emptyResponse
          else
            let chunks := expandChunksToTokenBudget env hits
            let docById := docs.map (fun d => (d.documentId, d))
            match buildPrompt chunks docById with
            | .error e => Except.error e
            | .ok prompt => Except.ok { response := prompt }

/-- `TsRAGCollector.run`: the body wrapped in the top-level `try/except`
that converts any exception into the empty-context response. -/
def runCollector (env : CollectorEnv) (userInput : List Message) : BaseAgentRunResponse :=
  match runInner env userInput with
  | .ok r => r
  | .error _ => emptyResponse

/-! ## Concrete scenario environments

Closed instantiations of the environments, used to evaluate the embedded
code on the inputs the claims talk about. -/

/-- Modelled from the spec: `get_by_id(hash)` is a direct point lookup of a
single record by its id, raising (not-found) when absent — the handler
method the collector calls lives in a module outside `src/`. -/
def getByIdFromIndex (index : List EsRecord) (chunkHash : String) : Except Unit Hit :=
  match index.find? (fun r => r.chunkHash = chunkHash) with
  | some r => Except.ok { source := r }
  | none => Except.error ()

/-- Chunk 0 of the five-chunk scenario document. -/
def r0 : EsRecord :=
  { chunkHash := "h0", chunkText := "t0", documentId := "doc1",
    prevChunkHash := "", nextChunkHash := "h1", chunkSequence := 0, agentIds := ["a1"] }

/-- Chunk 1 of the five-chunk scenario document. -/
def r1 : EsRecord :=
  { chunkHash := "h1", chunkText := "t1", documentId := "doc1",
    prevChunkHash := "h0", nextChunkHash := "h2", chunkSequence := 1, agentIds := ["a1"] }

/-- Chunk 2 of the five-chunk scenario document (the search hit). -/
def r2 : EsRecord :=
  { chunkHash := "h2", chunkText := "t2", documentId := "doc1",
    prevChunkHash := "h1", nextChunkHash := "h3", chunkSequence := 2, agentIds := ["a1"] }

/-- Chunk 3 of the five-chunk scenario document. -/
def r3 : EsRecord :=
  { chunkHash := "h3", chunkText := "t3", documentId := "doc1",
    prevChunkHash := "h2", nextChunkHash := "h4", chunkSequence := 3, agentIds := ["a1"] }

/-- Chunk 4 of the five-chunk scenario document. -/
def r4 : EsRecord :=
  { chunkHash := "h4", chunkText := "t4", documentId := "doc1",
    prevChunkHash := "h3", nextChunkHash := "", chunkSequence := 4, agentIds := ["a1"] }

/-- The five-chunk index of the end-to-end scenario. -/
def scenarioIndex : List EsRecord := [r0, r1, r2, r3, r4]

/-- The scenario document. -/
def doc1 : Doc := { documentId := "doc1", documentTitle := "Doctrine Compendium", mainLanguage := "en" }

/-- Environment of the end-to-end expansion scenario: one agent, one
document of five ~120-token chunks, healthy backend. -/
def env4 : CollectorEnv :=
  { agentId := "a1", fetchDocs := Except.ok [doc1],
    detect := fun _ => Except.ok "en",
    getTranslatedString := fun t _ => Except.ok t,
    esCall := Except.ok (), esIndex := scenarioIndex,
    score := fun _ r => if r.chunkHash = "h2" then 10 else 0,
    getById := getByIdFromIndex scenarioIndex,
    numTokens := fun _ => 120 }

/-- The single primary hit of the scenario, at sequence 2. -/
def hit2 : Hit := { source := r2 }

/-- `documents_by_id` of the scenario. -/
def docsById4 : List (String × Doc) := [("doc1", doc1)]

/-- The scenario environment with the point lookup of chunk 1 failing
(chunk 3 still resolves). -/
def env10 : CollectorEnv :=
  { env4 with getById := fun h => if h = "h3" then Except.ok { source := r3 } else Except.error () }

/-- An indexed chunk of a document that is not attached to agent `a1`. -/
def rForeign : EsRecord :=
  { chunkHash := "hb", chunkText := "text of an unattached document", documentId := "docB",
    prevChunkHash := "", nextChunkHash := "", chunkSequence := 0, agentIds := ["a2"] }

/-- The one document attached to agent `a1`. -/
def docA : Doc := { documentId := "docA", documentTitle := "Attached Book", mainLanguage := "en" }

/-- Environment where the index holds only a chunk of an unattached
document while agent `a1` owns `docA` alone. -/
def envC1 : CollectorEnv :=
  { agentId := "a1", fetchDocs := Except.ok [docA],
    detect := fun _ => Except.ok "en",
    getTranslatedString := fun t _ => Except.ok t,
    esCall := Except.ok (), esIndex := [rForeign],
    score := fun _ _ => 5,
    getById := getByIdFromIndex [rForeign],
    numTokens := fun _ => 50 }

/-- First oversized primary chunk (600 tokens). -/
def p1 : EsRecord :=
  { chunkHash := "p1", chunkText := "P1", documentId := "docP",
    prevChunkHash := "", nextChunkHash := "n1", chunkSequence := 0, agentIds := ["a1"] }

/-- Second oversized primary chunk (600 tokens). -/
def p2 : EsRecord :=
  { chunkHash := "p2", chunkText := "P2", documentId := "docP",
    prevChunkHash := "", nextChunkHash := "n2", chunkSequence := 3, agentIds := ["a1"] }

/-- Small neighbour of the first primary (10 tokens). -/
def n1r : EsRecord :=
  { chunkHash := "n1", chunkText := "nb", documentId := "docP",
    prevChunkHash := "p1", nextChunkHash := "", chunkSequence := 1, agentIds := ["a1"] }

/-- Small neighbour of the second primary (10 tokens). -/
def n2r : EsRecord :=
  { chunkHash := "n2", chunkText := "nb", documentId := "docP",
    prevChunkHash := "p2", nextChunkHash := "", chunkSequence := 4, agentIds := ["a1"] }

/-- Environment with two 600-token primaries whose neighbours cost 10
tokens each. -/
def envC5 : CollectorEnv :=
  { agentId := "a1", fetchDocs := Except.ok [{ documentId := "docP", documentTitle := "Book P", mainLanguage := "en" }],
    detect := fun _ => Except.ok "en",
    getTranslatedString := fun t _ => Except.ok t,
    esCall := Except.ok (), esIndex := [p1, p2, n1r, n2r],
    score := fun _ _ => 1,
    getById := getByIdFromIndex [p1, p2, n1r, n2r],
    numTokens := fun t => if t = "nb" then 10 else 600 }

/-- Environment whose language detector always raises and whose translator
answers a fixed string. -/
def envC7 : CollectorEnv :=
  { agentId := "a1", fetchDocs := Except.ok [{ documentId := "docF", documentTitle := "Livre", mainLanguage := "fr" }],
    detect := fun _ => Except.error (),
    getTranslatedString := fun _ _ => Except.ok "TRADUIT",
    esCall := Except.ok (), esIndex := [], score := fun _ _ => 0,
    getById := fun _ => Except.error (), numTokens := fun _ => 0 }

/-- `envC7` with the translator also raising. -/
def envC7fail : CollectorEnv :=
  { envC7 with getTranslatedString := fun _ _ => Except.error () }

/-- A conversation whose last user message is a six-word query. -/
def input7 : List Message :=
  [{ msgType := "message", role := "user",
     content := [{ partType := "text", text := "bonjour pouvez vous expliquer la doctrine" }] }]

/-- A chunk for the embedder witness. -/
def chunkW : DocumentChunk :=
  { documentId := "d", text := "hello world", prevChunkHash := none, nextChunkHash := none,
    hash := "hw", chunkSequence := 0 }

/-- An embedder environment whose model always answers and whose backend
never fails a write. -/
def envE : EmbedderEnv := { embedText := fun _ => Except.ok [1], writeFails := fun _ => false }

/-- Every entry of the selection map is keyed by the chunk hash of its
value — an invariant `add_chunk` maintains because it always inserts a
chunk under its own hash. -/
def WellKeyed (sel : Selected) : Prop := ∀ p ∈ sel, p.2.chunkHash = p.1

/-! ## Helper lemmas

Shared facts about the association-list operations, the selection map of
the expansion loop and the embedder index fold. -/

/-- Association-list lookup distributes over append. -/
theorem lookup_append {β : Type} (l₁ l₂ : List (String × β)) (k : String) :
    (l₁ ++ l₂).lookup k = ((l₁.lookup k).or (l₂.lookup k)) := by
  induction l₁ with
  | nil => simp [List.lookup]
  | cons p t ih =>
    rcases p with ⟨a, b⟩
    simp only [List.cons_append, List.lookup_cons]
    cases h : (k == a) <;> simp [h, ih]

/-- A successful lookup names an entry of the list. -/
theorem lookup_mem {β : Type} {l : List (String × β)} {k : String} {v : β}
    (h : l.lookup k = some v) : (k, v) ∈ l := by
  induction l with
  | nil => simp [List.lookup] at h
  | cons p t ih =>
    rcases p with ⟨a, b⟩
    rw [List.lookup_cons] at h
    cases hk : (k == a) with
    | true =>
      rw [hk] at h
      simp only at h
      cases h
      have : k = a := by simpa using hk
      subst this
      exact List.mem_cons_self _ _
    | false =>
      rw [hk] at h
      simp only at h
      exact List.mem_cons_of_mem _ (ih h)

/-- `add_chunk` never removes a key. -/
theorem lookup_isSome_addChunk (sel : Selected) (c : Option EsRecord) (k : String)
    (h : (sel.lookup k).isSome) : ((addChunk sel c).lookup k).isSome := by
  cases c with
  | none => exact h
  | some c =>
    rw [addChunk]
    split
    · exact h
    · rw [lookup_append]
      cases hl : sel.lookup k
      · rw [hl] at h; simp at h
      · simp [hl, Option.or]

/-- After `add_chunk sel (some c)` the hash of `c` is a key. -/
theorem addChunk_lookup_self (sel : Selected) (c : EsRecord) :
    ((addChunk sel (some c)).lookup c.chunkHash).isSome := by
  rw [addChunk]
  split
  · next hc => exact hc
  · rw [lookup_append]
    cases hl : sel.lookup c.chunkHash
    · simp [hl, Option.or, List.lookup]
    · simp [hl, Option.or]

/-- The primary-insertion loop never removes a key. -/
theorem addPrimaries_preserves_lookup (hits : List Hit) (sel : Selected) (k : String)
    (h : (sel.lookup k).isSome) : ((addPrimaries sel hits).lookup k).isSome := by
  induction hits generalizing sel with
  | nil => exact h
  | cons hh t ih =>
    rw [addPrimaries]
    exact ih _ (lookup_isSome_addChunk _ _ _ h)

/-- Every primary hit ends up keyed in the selection. -/
theorem addPrimaries_lookup (hits : List Hit) (sel : Selected) (hit : Hit)
    (hmem : hit ∈ hits) :
    ((addPrimaries sel hits).lookup hit.source.chunkHash).isSome := by
  induction hits generalizing sel with
  | nil => cases hmem
  | cons hh t ih =>
    rw [addPrimaries]
    rcases List.mem_cons.mp hmem with rfl | hm
    · exact addPrimaries_preserves_lookup _ _ _ (addChunk_lookup_self sel hit.source)
    · exact ih _ hm

/-- A neighbour attempt never removes a key. -/
theorem processNeighbour_preserves_lookup (env : CollectorEnv) (sel : Selected)
    (nh k : String) (h : (sel.lookup k).isSome) :
    ((processNeighbour env sel nh).lookup k).isSome := by
  rw [processNeighbour]
  split
  · exact lookup_isSome_addChunk _ _ _ h
  · exact h

/-- The expansion loop never removes a key. -/
theorem expandLoop_preserves_lookup (env : CollectorEnv) (hits : List Hit)
    (sel : Selected) (k : String) (h : (sel.lookup k).isSome) :
    ((expandLoop env hits sel).lookup k).isSome := by
  induction hits generalizing sel with
  | nil => exact h
  | cons hh t ih =>
    rw [expandLoop]
    split
    · exact h
    · exact ih _ (processNeighbour_preserves_lookup _ _ _ _
        (processNeighbour_preserves_lookup _ _ _ _ h))

/-- Every primary hit is keyed in the final selection, whatever the budget
or the neighbour lookups do. -/
theorem expandSelected_lookup (env : CollectorEnv) (hits : List Hit) (hit : Hit)
    (hmem : hit ∈ hits) :
    ((expandSelected env hits).lookup hit.source.chunkHash).isSome := by
  rw [expandSelected]
  exact expandLoop_preserves_lookup _ _ _ _ (addPrimaries_lookup _ _ _ hmem)

/-- `add_chunk` maintains the keying invariant. -/
theorem wellKeyed_addChunk (sel : Selected) (c : Option EsRecord)
    (h : WellKeyed sel) : WellKeyed (addChunk sel c) := by
  cases c with
  | none => exact h
  | some c =>
    rw [addChunk]
    split
    · exact h
    · intro p hp
      rcases List.mem_append.mp hp with hp | hp
      · exact h p hp
      · simp at hp; subst hp; rfl

/-- The primary-insertion loop maintains the keying invariant. -/
theorem wellKeyed_addPrimaries (hits : List Hit) (sel : Selected)
    (h : WellKeyed sel) : WellKeyed (addPrimaries sel hits) := by
  induction hits generalizing sel with
  | nil => exact h
  | cons hh t ih => exact ih _ (wellKeyed_addChunk _ _ h)

/-- A neighbour attempt maintains the keying invariant. -/
theorem wellKeyed_processNeighbour (env : CollectorEnv) (sel : Selected) (nh : String)
    (h : WellKeyed sel) : WellKeyed (processNeighbour env sel nh) := by
  rw [processNeighbour]
  split
  · exact wellKeyed_addChunk _ _ h
  · exact h

/-- The expansion loop maintains the keying invariant. -/
theorem wellKeyed_expandLoop (env : CollectorEnv) (hits : List Hit) (sel : Selected)
    (h : WellKeyed sel) : WellKeyed (expandLoop env hits sel) := by
  induction hits generalizing sel with
  | nil => exact h
  | cons hh t ih =>
    rw [expandLoop]
    split
    · exact h
    · exact ih _ (wellKeyed_processNeighbour _ _ _ (wellKeyed_processNeighbour _ _ _ h))

/-- The final selection is well keyed. -/
theorem wellKeyed_expandSelected (env : CollectorEnv) (hits : List Hit) :
    WellKeyed (expandSelected env hits) := by
  rw [expandSelected]
  exact wellKeyed_expandLoop _ _ _ (wellKeyed_addPrimaries _ _ (by intro p hp; cases hp))

/-- Membership through the stable sequence insertion. -/
theorem mem_insertBySeq (r x : EsRecord) (l : List EsRecord) :
    x ∈ insertBySeq r l ↔ x = r ∨ x ∈ l := by
  induction l with
  | nil => simp [insertBySeq]
  | cons y ys ih =>
    rw [insertBySeq]
    split
    · simp
    · rw [List.mem_cons, ih]
      simp [List.mem_cons]
      tauto

/-- Membership through the sorting fold, with accumulator. -/
theorem mem_sortBySeq_aux (l : List EsRecord) (acc : List EsRecord) (x : EsRecord) :
    x ∈ l.foldl (fun acc r => insertBySeq r acc) acc ↔ x ∈ acc ∨ x ∈ l := by
  induction l generalizing acc with
  | nil => simp
  | cons y ys ih =>
    rw [List.foldl_cons, ih, mem_insertBySeq]
    simp [List.mem_cons]
    tauto

/-- The per-group sort is a permutation as far as membership goes. -/
theorem mem_sortBySeq (l : List EsRecord) (x : EsRecord) :
    x ∈ sortBySeq l ↔ x ∈ l := by
  rw [sortBySeq, mem_sortBySeq_aux]
  simp

/-- Membership in the group-order fold, with accumulator. -/
theorem mem_groupOrder_aux (sel : Selected) (acc : List String) (d : String) :
    d ∈ sel.foldl
      (fun acc p => if acc.contains p.2.documentId then acc else acc ++ [p.2.documentId]) acc ↔
    d ∈ acc ∨ ∃ p ∈ sel, p.2.documentId = d := by
  induction sel generalizing acc with
  | nil => simp
  | cons q t ih =>
    rw [List.foldl_cons]
    by_cases hc : acc.contains q.2.documentId = true
    · rw [if_pos hc, ih]
      have hq : q.2.documentId ∈ acc := by simpa using hc
      constructor
      · rintro (h | ⟨p, hp, hd⟩)
        · exact Or.inl h
        · exact Or.inr ⟨p, List.mem_cons_of_mem _ hp, hd⟩
      · rintro (h | ⟨p, hp, hd⟩)
        · exact Or.inl h
        · rcases List.mem_cons.mp hp with rfl | hp2
          · exact Or.inl (hd ▸ hq)
          · exact Or.inr ⟨p, hp2, hd⟩
    · rw [if_neg hc, ih]
      constructor
      · rintro (h | ⟨p, hp, hd⟩)
        · rcases List.mem_append.mp h with h1 | h1
          · exact Or.inl h1
          · have : d = q.2.documentId := by simpa using h1
            exact Or.inr ⟨q, List.mem_cons_self _ _, this.symm⟩
        · exact Or.inr ⟨p, List.mem_cons_of_mem _ hp, hd⟩
      · rintro (h | ⟨p, hp, hd⟩)
        · exact Or.inl (List.mem_append_left _ h)
        · rcases List.mem_cons.mp hp with rfl | hp2
          · exact Or.inl (List.mem_append_right _ (by simp [hd]))
          · exact Or.inr ⟨p, hp2, hd⟩

/-- A document id appears in the grouping order exactly when some selected
chunk carries it. -/
theorem mem_groupOrder (sel : Selected) (d : String) :
    d ∈ groupOrder sel ↔ ∃ p ∈ sel, p.2.documentId = d := by
  rw [groupOrder, mem_groupOrder_aux]
  simp

/-- Every selected chunk survives grouping, sorting and flattening. -/
theorem mem_expandChunks (env : CollectorEnv) (hits : List Hit) (p : String × EsRecord)
    (hp : p ∈ expandSelected env hits) :
    p.2 ∈ expandChunksToTokenBudget env hits := by
  rw [expandChunksToTokenBudget]
  apply List.mem_flatMap.mpr
  refine ⟨p.2.documentId, ?_, ?_⟩
  · exact (mem_groupOrder _ _).mpr ⟨p, hp, rfl⟩
  · rw [mem_sortBySeq]
    exact List.mem_filter.mpr ⟨List.mem_map.mpr ⟨p, hp, rfl⟩, by simp⟩

/-- Primaries are never excluded: each primary hit contributes a chunk with
its hash to the flattened expansion output. -/
theorem expandChunks_contains_primary (env : CollectorEnv) (hits : List Hit) (hit : Hit)
    (hmem : hit ∈ hits) :
    ∃ c ∈ expandChunksToTokenBudget env hits, c.chunkHash = hit.source.chunkHash := by
  have hs := expandSelected_lookup env hits hit hmem
  cases hl : (expandSelected env hits).lookup hit.source.chunkHash with
  | none => rw [hl] at hs; simp at hs
  | some v =>
    have hmem2 := lookup_mem hl
    have hwk := wellKeyed_expandSelected env hits _ hmem2
    exact ⟨v, mem_expandChunks env hits _ hmem2, hwk⟩

/-- Token total over an appended entry. -/
theorem totalTokens_append (env : CollectorEnv) (sel : Selected) (p : String × EsRecord) :
    totalTokens env (sel ++ [p]) = totalTokens env sel + env.numTokens p.2.chunkText := by
  simp [totalTokens]

/-- `add_chunk` grows the token total by at most the added chunk. -/
theorem totalTokens_addChunk_le (env : CollectorEnv) (sel : Selected) (c : EsRecord) :
    totalTokens env (addChunk sel (some c)) ≤
      totalTokens env sel + env.numTokens c.chunkText := by
  rw [addChunk]
  split
  · exact Nat.le_add_right _ _
  · exact Nat.le_of_eq (totalTokens_append _ _ _)

/-- One neighbour attempt keeps the total under
`max T0 (MAX_TOKENS - 1 + B)` when every fetchable neighbour costs at most
`B` tokens: the attempt only adds below `MAX_TOKENS`. -/
theorem processNeighbour_budget (env : CollectorEnv) (sel : Selected) (nh : String)
    (B T0 : Nat)
    (hB : ∀ h c, fetchChunkByHash env h = some c → env.numTokens c.chunkText ≤ B)
    (hsel : totalTokens env sel ≤ max T0 (MAX_TOKENS - 1 + B)) :
    totalTokens env (processNeighbour env sel nh) ≤ max T0 (MAX_TOKENS - 1 + B) := by
  rw [processNeighbour]
  split
  · next hguard =>
    cases hf : fetchChunkByHash env nh with
    | none => exact hsel
    | some c =>
      have h1 : totalTokens env sel ≤ MAX_TOKENS - 1 := Nat.le_pred_of_lt hguard.2
      calc totalTokens env (addChunk sel (some c))
          ≤ totalTokens env sel + env.numTokens c.chunkText := totalTokens_addChunk_le _ _ _
        _ ≤ (MAX_TOKENS - 1) + B := Nat.add_le_add h1 (hB _ _ hf)
        _ ≤ max T0 (MAX_TOKENS - 1 + B) := le_max_right _ _
  · exact hsel

/-- The expansion loop keeps the token total under the same bound. -/
theorem expandLoop_budget (env : CollectorEnv) (hits : List Hit) (sel : Selected)
    (B T0 : Nat)
    (hB : ∀ h c, fetchChunkByHash env h = some c → env.numTokens c.chunkText ≤ B)
    (hsel : totalTokens env sel ≤ max T0 (MAX_TOKENS - 1 + B)) :
    totalTokens env (expandLoop env hits sel) ≤ max T0 (MAX_TOKENS - 1 + B) := by
  induction hits generalizing sel with
  | nil => exact hsel
  | cons hh t ih =>
    rw [expandLoop]
    split
    · exact hsel
    · exact ih _ (processNeighbour_budget _ _ _ _ _ hB
        (processNeighbour_budget _ _ _ _ _ hB hsel))

/-- The final selection total is bounded by the primaries total or by
`MAX_TOKENS - 1` plus one neighbour. -/
theorem expandSelected_budget (env : CollectorEnv) (hits : List Hit) (B : Nat)
    (hB : ∀ h c, fetchChunkByHash env h = some c → env.numTokens c.chunkText ≤ B) :
    totalTokens env (expandSelected env hits) ≤
      max (totalTokens env (addPrimaries [] hits)) (MAX_TOKENS - 1 + B) := by
  rw [expandSelected]
  exact expandLoop_budget _ _ _ _ _ hB (le_max_left _ _)

/-- An id conflict leaves the embedder state untouched: the write is passed
over and the chunk is not recorded as failed. -/
theorem indexChunk_conflict_noop (env : EmbedderEnv) (st : EmbedderState) (c : DocumentChunk)
    (hok : (env.embedText c.text).isOk = true)
    (hpres : (st.esIndex.lookup c.hash).isSome = true) :
    indexChunk env st c = st := by
  rw [indexChunk]
  split
  · next e he => rw [he] at hok; simp [Except.isOk, Except.toBool] at hok
  · next v hv => rw [if_pos hpres]

/-- `index_chunk` never removes a record. -/
theorem indexChunk_preserves_lookup (env : EmbedderEnv) (st : EmbedderState)
    (c : DocumentChunk) (k : String) (h : (st.esIndex.lookup k).isSome = true) :
    ((indexChunk env st c).esIndex.lookup k).isSome = true := by
  rw [indexChunk]
  split
  · exact h
  · split
    · exact h
    · split
      · exact h
      · show ((st.esIndex ++ [(c.hash, _)]).lookup k).isSome = true
        rw [lookup_append]
        cases hl : st.esIndex.lookup k
        · rw [hl] at h; simp at h
        · simp [Option.or]

/-- A successful `index_chunk` leaves a record under the chunk hash. -/
theorem indexChunk_present_self (env : EmbedderEnv) (st : EmbedderState) (c : DocumentChunk)
    (hok : (env.embedText c.text).isOk = true)
    (hw : env.writeFails c.hash = false) :
    ((indexChunk env st c).esIndex.lookup c.hash).isSome = true := by
  rw [indexChunk]
  split
  · next e he => rw [he] at hok; simp [Except.isOk, Except.toBool] at hok
  · next v hv =>
    by_cases hpres : (st.esIndex.lookup c.hash).isSome = true
    · rw [if_pos hpres]; exact hpres
    · rw [if_neg hpres, if_neg (by simp [hw])]
      show ((st.esIndex ++ [(c.hash, _)]).lookup c.hash).isSome = true
      rw [lookup_append]
      cases hl : st.esIndex.lookup c.hash
      · simp [Option.or, List.lookup]
      · simp [Option.or]

/-- An embed-and-store pass never removes a record. -/
theorem embedPass_preserves_lookup (env : EmbedderEnv) (chunks : List DocumentChunk)
    (st : EmbedderState) (k : String) (h : (st.esIndex.lookup k).isSome = true) :
    ((embedPass env st chunks).esIndex.lookup k).isSome = true := by
  induction chunks generalizing st with
  | nil => exact h
  | cons c t ih => exact ih _ (indexChunk_preserves_lookup _ _ _ _ h)

/-- A clean pass leaves every chunk hash present in the index. -/
theorem embedPass_all_present (env : EmbedderEnv) (chunks : List DocumentChunk)
    (st : EmbedderState)
    (hok : ∀ c ∈ chunks, (env.embedText c.text).isOk = true)
    (hw : ∀ k, env.writeFails k = false) :
    ∀ c ∈ chunks, ((embedPass env st chunks).esIndex.lookup c.hash).isSome = true := by
  induction chunks generalizing st with
  | nil => intro c hc; cases hc
  | cons c t ih =>
    intro c2 hc2
    rcases List.mem_cons.mp hc2 with rfl | hm
    · show ((embedPass env (indexChunk env st c2) t).esIndex.lookup c2.hash).isSome = true
      exact embedPass_preserves_lookup _ _ _ _
        (indexChunk_present_self _ _ _ (hok _ (List.mem_cons_self _ _)) (hw _))
    · show ((embedPass env (indexChunk env st c) t).esIndex.lookup c2.hash).isSome = true
      exact ih _ (fun c3 hc3 => hok _ (List.mem_cons_of_mem _ hc3)) _ hm

/-- A pass over chunks that are all already indexed is the identity. -/
theorem embedPass_fixpoint (env : EmbedderEnv) (chunks : List DocumentChunk)
    (st : EmbedderState)
    (hok : ∀ c ∈ chunks, (env.embedText c.text).isOk = true)
    (hpres : ∀ c ∈ chunks, (st.esIndex.lookup c.hash).isSome = true) :
    embedPass env st chunks = st := by
  induction chunks with
  | nil => rfl
  | cons c t ih =>
    show embedPass env (indexChunk env st c) t = st
    rw [indexChunk_conflict_noop env st c (hok _ (List.mem_cons_self _ _))
      (hpres _ (List.mem_cons_self _ _))]
    exact ih (fun c3 hc3 => hok _ (List.mem_cons_of_mem _ hc3))
      (fun c3 hc3 => hpres _ (List.mem_cons_of_mem _ hc3))

/-- The need-detection heuristic in closed form: RAG exactly when the query
has at least 4 whitespace-separated words and its stripped lowercase form
is not a trivial acknowledgment. -/
theorem needsRag_characterization (q : String) :
    needsRag q =
      (decide (4 ≤ (pySplit q).length) &&
        !simplePhrases.contains (pyStrip [' ', '.', ',', '!'] (pyLower q))) := by
  by_cases hshort : q = "" ∨ (pySplit q).length < 4
  · rw [needsRag, if_pos hshort]
    rcases hshort with h | h
    · subst h; decide
    · have h4 : ¬ 4 ≤ (pySplit q).length := Nat.not_le.mpr h
      simp [h4]
  · rw [needsRag, if_neg hshort]
    push_neg at hshort
    have h4 : 4 ≤ (pySplit q).length := hshort.2
    by_cases hmem : simplePhrases.contains (pyStrip [' ', '.', ',', '!'] (pyLower q)) = true
    · simp [hmem, h4]
    · simp only [Bool.not_eq_true] at hmem
      simp [hmem, h4]

/-! ## Claim theorems -/

/-- Claim C1 (code bug): the collector hands `metadata_filters = {agent_id: ...}`
to `search_and_filter`, but the handler whitelists only `document_id`,
`prev_chunk_hash`, `next_chunk_hash` and `hash` as term-filter keys, so the
`agent_id` clause is silently dropped and the search is not scoped to the
agent: evaluated on an index holding only a chunk of a document that is not
attached to agent `a1`, the agent-scoped search returns that foreign chunk. -/
theorem c1_agent_filter_silently_dropped :
    keywordFields.contains "agent_id" = false ∧
    envC1.fetchDocs = Except.ok [docA] ∧
    (∀ d ∈ [docA], d.documentId ≠ rForeign.documentId) ∧
    (esSearch envC1 "what does grace mean here").map (fun h => h.source) = [rForeign] :=
  ⟨by decide, rfl, by decide, by decide⟩

/-- Claim C2 (code bug): in `process_document` the prev/next link of a chunk
hashes only `"{document_id}:{index}"` while the chunk record id hashes
`"{document_id}:{index}:{text}"`, so on the two-chunk document `d` the links
never equal the adjacent chunk hashes and the chain invariant the spec
states fails. -/
theorem c2_chain_invariant_fails :
    ((buildChunkMetas "d" "a1" "en" ["aaaa", "bbbb"]).getD 0 dummyMeta).nextChunkHash ≠
      ((buildChunkMetas "d" "a1" "en" ["aaaa", "bbbb"]).getD 1 dummyMeta).chunkHash ∧
    ((buildChunkMetas "d" "a1" "en" ["aaaa", "bbbb"]).getD 1 dummyMeta).prevChunkHash ≠
      ((buildChunkMetas "d" "a1" "en" ["aaaa", "bbbb"]).getD 0 dummyMeta).chunkHash ∧
    ((buildChunkMetas "d" "a1" "en" ["aaaa", "bbbb"]).getD 0 dummyMeta).nextChunkHash =
      sha256Hex "d:1" ∧
    ((buildChunkMetas "d" "a1" "en" ["aaaa", "bbbb"]).getD 1 dummyMeta).chunkHash =
      sha256Hex "d:1:bbbb" :=
  ⟨by decide, by decide, rfl, rfl⟩

set_option maxRecDepth 100000 in
/-- Supporting fact for the chain invariant: the other chunker of the
repository, `TextChunker.get_document_chunks`, does satisfy it — adjacent
links there are computed exactly as the neighbouring chunk hash. -/
theorem getDocumentChunks_chain_invariant (documentId : String) (chunks : List String)
    (i : Nat) (h : i + 1 < chunks.length) :
    ((getDocumentChunks documentId chunks).getD i dummyChunk).nextChunkHash =
      some (((getDocumentChunks documentId chunks).getD (i + 1) dummyChunk).hash) ∧
    ((getDocumentChunks documentId chunks).getD (i + 1) dummyChunk).prevChunkHash =
      some (((getDocumentChunks documentId chunks).getD i dummyChunk).hash) := by
  have hlen : (getDocumentChunks documentId chunks).length = chunks.length := by
    simp [getDocumentChunks]
  have h1 : i < chunks.length := by omega
  rw [List.getD_eq_getElem _ _ (hlen ▸ h1), List.getD_eq_getElem _ _ (hlen ▸ h)]
  simp only [getDocumentChunks, List.getElem_map, List.getElem_range]
  constructor
  · rw [if_neg (by omega)]
  · rw [if_neg (by omega)]
    simp

/-- Witness for the supporting chain-invariant fact, at a two-chunk
document. -/
theorem getDocumentChunks_chain_invariant_witness :
    0 + 1 < (["s", "t"] : List String).length ∧
    (((getDocumentChunks "d" ["s", "t"]).getD 0 dummyChunk).nextChunkHash =
      some (((getDocumentChunks "d" ["s", "t"]).getD (0 + 1) dummyChunk).hash) ∧
    ((getDocumentChunks "d" ["s", "t"]).getD (0 + 1) dummyChunk).prevChunkHash =
      some (((getDocumentChunks "d" ["s", "t"]).getD 0 dummyChunk).hash)) :=
  ⟨by decide, getDocumentChunks_chain_invariant "d" ["s", "t"] 0 (by decide)⟩

/-- Claim C3, counterexample: `TextChunker.generate_chunk_hash` hashes the
chunk text alone, so two chunks with the same text in different documents
and at different positions get the same hash, and the hash differs from the
`H(document_id:index:text)` form the claim states. -/
theorem c3_hash_ignores_document_and_position :
    ((getDocumentChunks "docA" ["x", "y"]).getD 0 dummyChunk).hash =
      ((getDocumentChunks "docB" ["z", "w", "x"]).getD 2 dummyChunk).hash ∧
    ((getDocumentChunks "docA" ["x", "y"]).getD 0 dummyChunk).documentId ≠
      ((getDocumentChunks "docB" ["z", "w", "x"]).getD 2 dummyChunk).documentId ∧
    ((getDocumentChunks "docA" ["x", "y"]).getD 0 dummyChunk).chunkSequence ≠
      ((getDocumentChunks "docB" ["z", "w", "x"]).getD 2 dummyChunk).chunkSequence ∧
    ((getDocumentChunks "docA" ["x", "y"]).getD 0 dummyChunk).hash ≠
      sha256Hex ("docA" ++ ":" ++ Nat.repr 0 ++ ":" ++ "x") :=
  ⟨rfl, by decide, by decide, by decide⟩

set_option maxRecDepth 100000 in
/-- Claim C3, amended: the RAG indexer `process_document` computes the chunk
hash as `H(document_id:index:text)`, a pure function of the triple, while
`TextChunker.generate_chunk_hash` computes it as `H(text)` alone — pure in
the text but not incorporating the document id or the position. -/
theorem c3_hash_formula (documentId agentId language : String) (chunks : List String)
    (i : Nat) (hi : i < chunks.length) :
    ((buildChunkMetas documentId agentId language chunks).getD i dummyMeta).chunkHash =
      sha256Hex (documentId ++ ":" ++ Nat.repr i ++ ":" ++ chunks.getD i "") ∧
    ((getDocumentChunks documentId chunks).getD i dummyChunk).hash =
      sha256Hex (chunks.getD i "") := by
  have hlen1 : (buildChunkMetas documentId agentId language chunks).length = chunks.length := by
    simp [buildChunkMetas]
  have hlen2 : (getDocumentChunks documentId chunks).length = chunks.length := by
    simp [getDocumentChunks]
  constructor
  · rw [List.getD_eq_getElem _ _ (hlen1 ▸ hi)]
    simp [buildChunkMetas]
  · rw [List.getD_eq_getElem _ _ (hlen2 ▸ hi)]
    simp [getDocumentChunks, generateChunkHash]

/-- Witness for the amended C3 hash formulas, at a one-chunk document. -/
theorem c3_hash_formula_witness :
    0 < (["x"] : List String).length ∧
    (((buildChunkMetas "d" "a1" "en" ["x"]).getD 0 dummyMeta).chunkHash =
      sha256Hex ("d" ++ ":" ++ Nat.repr 0 ++ ":" ++ (["x"] : List String).getD 0 "") ∧
    ((getDocumentChunks "d" ["x"]).getD 0 dummyChunk).hash =
      sha256Hex ((["x"] : List String).getD 0 "")) :=
  ⟨by decide, c3_hash_formula "d" "a1" "en" ["x"] 0 (by decide)⟩

/-- Claim C4, counterexample: on the five-chunk scenario with the single
hit at sequence 2 and 120-token chunks, the expansion yields only sequences
1, 2, 3 — it never continues outward to 0 and 4, so the output is not the
claimed [0, 1, 2, 3, 4]. -/
theorem c4_no_outward_expansion :
    (expandChunksToTokenBudget env4 [hit2]).map (fun c => c.chunkSequence) = [1, 2, 3] ∧
    (expandChunksToTokenBudget env4 [hit2]).map (fun c => c.chunkSequence) ≠
      [0, 1, 2, 3, 4] ∧
    ((expandChunksToTokenBudget env4 [hit2]).map (fun c => c.chunkSequence)).contains 0 =
      false ∧
    totalTokens env4 (expandSelected env4 [hit2]) = 360 :=
  ⟨by decide, by decide, by decide, by decide⟩

/-- Claim C4, amended: expansion adds exactly the immediate neighbours of
the hit (sequences 1 and 3, 360 tokens in total); there is no outward
continuation, and the output groups the three chunks under a single book
header in sequence order 1, 2, 3. -/
theorem c4_immediate_neighbours_only :
    (expandChunksToTokenBudget env4 [hit2]).map (fun c => c.chunkSequence) = [1, 2, 3] ∧
    buildPromptGo docsById4 (expandChunksToTokenBudget env4 [hit2]) none 1 =
      Except.ok ["\n### Book: Doctrine Compendium\n",
                 "--- chunk 1 ---", "t1", "--- end chunk 1 ---\n",
                 "--- chunk 2 ---", "t2", "--- end chunk 2 ---\n",
                 "--- chunk 3 ---", "t3", "--- end chunk 3 ---\n"] :=
  ⟨by decide, rfl⟩

/-- Claim C5, counterexample: two 600-token primaries blow the budget on
their own — the selection totals 1200 tokens although every neighbour chunk
in the index costs 10 tokens, so the total exceeds `MAX_TOKENS` by more
than one neighbour chunk. -/
theorem c5_primaries_exceed_budget_unboundedly :
    totalTokens envC5 (expandSelected envC5 [{ source := p1 }, { source := p2 }]) = 1200 ∧
    (∀ r ∈ envC5.esIndex, r.chunkHash ≠ "p1" → r.chunkHash ≠ "p2" →
      envC5.numTokens r.chunkText = 10) ∧
    MAX_TOKENS + 10 < 1200 := by
  decide

/-- Claim C5, amended: all primary hits are always keyed into the
selection, and whenever every fetchable neighbour costs at most `B` tokens
the final total is bounded by the larger of the primaries-only total and
`MAX_TOKENS - 1 + B` — i.e. the overshoot beyond the budget is one
neighbour chunk at most, except that the primaries themselves are admitted
without any budget check. -/
theorem c5_budget_overshoot_bound (env : CollectorEnv) (hits : List Hit) (B : Nat)
    (hB : ∀ h c, fetchChunkByHash env h = some c → env.numTokens c.chunkText ≤ B) :
    (∀ hit ∈ hits, ((expandSelected env hits).lookup hit.source.chunkHash).isSome) ∧
    totalTokens env (expandSelected env hits) ≤
      max (totalTokens env (addPrimaries [] hits)) (MAX_TOKENS - 1 + B) :=
  ⟨fun hit hm => expandSelected_lookup env hits hit hm, expandSelected_budget env hits B hB⟩

/-- Witness for the amended C5 bound, on the five-chunk scenario with the
uniform 120-token tokenizer. -/
theorem c5_budget_overshoot_bound_witness :
    (∀ hit ∈ [hit2], ((expandSelected env4 [hit2]).lookup hit.source.chunkHash).isSome) ∧
    totalTokens env4 (expandSelected env4 [hit2]) ≤
      max (totalTokens env4 (addPrimaries [] [hit2])) (MAX_TOKENS - 1 + 120) :=
  c5_budget_overshoot_bound env4 [hit2] 120 (by intro h c hc; exact Nat.le_refl _)

/-- Claim C6: the `run` entry point of the collector never raises — for
every environment and conversation it either returns the successful body
result, or the body raised and the caught exception is converted into the
empty-context response. -/
theorem c6_run_never_raises (env : CollectorEnv) (userInput : List Message) :
    (runInner env userInput = Except.error () ∧ runCollector env userInput = emptyResponse) ∨
    (∃ r, runInner env userInput = Except.ok r ∧ runCollector env userInput = r) := by
  cases h : runInner env userInput with
  | error e => cases e; exact Or.inl ⟨rfl, by simp [runCollector, h]⟩
  | ok r => exact Or.inr ⟨r, rfl, by simp [runCollector, h]⟩

/-- Claim C7, counterexample: when language detection raises, the collector
does not fall back to the original query — it presumes English and still
translates (searching with the translated text), and when the translation
itself raises, the whole run degrades to the empty response instead of
searching with the original text. -/
theorem c7_fallback_claim_false :
    envC7.detect "bonjour pouvez vous expliquer la doctrine" = Except.error () ∧
    maybeTranslate envC7 "bonjour pouvez vous expliquer la doctrine" "fr" =
      Except.ok ("TRADUIT", true) ∧
    "TRADUIT" ≠ "bonjour pouvez vous expliquer la doctrine" ∧
    runInner envC7fail input7 = Except.error () ∧
    runCollector envC7fail input7 = emptyResponse :=
  ⟨rfl, rfl, by decide, rfl, rfl⟩

/-- Claim C7, amended: a detection failure falls back to the fixed guess
`"en"`, so the original text is searched unmodified only when the dominant
language is English; otherwise the translator is still called, and a
translator failure propagates out of `_maybe_translate` (to be caught by
the top-level handler as an empty result, not a search with the original
text). -/
theorem c7_detection_fallback_behaviour (env : CollectorEnv) (text target : String)
    (hdet : env.detect text = Except.error ()) :
    (target = "en" → maybeTranslate env text target = Except.ok (text, false)) ∧
    (target ≠ "en" → maybeTranslate env text target =
      (env.getTranslatedString text target).map (fun t => (t, true))) ∧
    (target ≠ "en" → env.getTranslatedString text target = Except.error () →
      maybeTranslate env text target = Except.error ()) := by
  simp only [maybeTranslate, hdet]
  refine ⟨?_, ?_, ?_⟩
  · intro h
    subst h
    simp
  · intro h
    rw [if_neg (fun hh : "en" = target => h hh.symm)]
  · intro h htr
    rw [if_neg (fun hh : "en" = target => h hh.symm), htr]
    rfl

/-- Witness for the amended C7 behaviour, on the failing detector with an
English and a French target. -/
theorem c7_detection_fallback_witness :
    (("en" : String) = "en" →
      maybeTranslate envC7 "bonjour pouvez vous expliquer la doctrine" "en" =
        Except.ok ("bonjour pouvez vous expliquer la doctrine", false)) ∧
    (("en" : String) ≠ "en" →
      maybeTranslate envC7 "bonjour pouvez vous expliquer la doctrine" "en" =
      (envC7.getTranslatedString "bonjour pouvez vous expliquer la doctrine" "en").map
        (fun t => (t, true))) ∧
    (("en" : String) ≠ "en" →
      envC7.getTranslatedString "bonjour pouvez vous expliquer la doctrine" "en" =
        Except.error () →
      maybeTranslate envC7 "bonjour pouvez vous expliquer la doctrine" "en" =
        Except.error ()) :=
  c7_detection_fallback_behaviour envC7 "bonjour pouvez vous expliquer la doctrine" "en" rfl

/-- Claim C8: need-detection returns true exactly when the query has at
least 4 whitespace-separated words and its trimmed, punctuation-stripped
lowercase form is not a trivial acknowledgment; in particular it is false
on "hi", "thanks!" and "ok", and true on the grace-and-free-will query. -/
theorem c8_need_detection :
    (∀ q : String, needsRag q =
      (decide (4 ≤ (pySplit q).length) &&
        !simplePhrases.contains (pyStrip [' ', '.', ',', '!'] (pyLower q)))) ∧
    needsRag "hi" = false ∧
    needsRag "thanks!" = false ∧
    needsRag "ok" = false ∧
    needsRag "What does the book say about grace and free will?" = true :=
  ⟨needsRag_characterization, by decide, by decide, by decide, by decide⟩

/-- Claim C9: indexing is create-only under the chunk hash as record id —
an id conflict leaves the state untouched (in particular the chunk is not
recorded as failed), and when embedding succeeds and the backend does not
fail writes, running the embed-and-store pass twice over the same chunk set
leaves the index exactly as after the first run. -/
theorem c9_ingestion_idempotent (env : EmbedderEnv) (chunks : List DocumentChunk)
    (hok : ∀ c ∈ chunks, (env.embedText c.text).isOk = true)
    (hw : ∀ k, env.writeFails k = false) :
    (∀ st c, (env.embedText c.text).isOk = true →
      (st.esIndex.lookup c.hash).isSome = true → indexChunk env st c = st) ∧
    embedPass env (embedPass env initialEmbedderState chunks) chunks =
      embedPass env initialEmbedderState chunks :=
  ⟨fun st c h1 h2 => indexChunk_conflict_noop env st c h1 h2,
   embedPass_fixpoint env chunks _ hok (embedPass_all_present env chunks _ hok hw)⟩

/-- Witness for C9, with a one-chunk set and an always-successful model. -/
theorem c9_ingestion_idempotent_witness :
    (∀ st c, (envE.embedText c.text).isOk = true →
      (st.esIndex.lookup c.hash).isSome = true → indexChunk envE st c = st) ∧
    embedPass envE (embedPass envE initialEmbedderState [chunkW]) [chunkW] =
      embedPass envE initialEmbedderState [chunkW] :=
  c9_ingestion_idempotent envE [chunkW] (by intro c hc; rfl) (fun k => rfl)

/-- Claim C10: a failing neighbour point lookup is absorbed locally —
`_fetch_chunk_by_hash` converts the exception to `None`, `add_chunk`
ignores `None`, every primary hit still reaches the output, and on the
concrete scenario where the lookup of chunk 1 fails the prompt is built
from the hit and its surviving neighbour (sequences 2 and 3), not empty. -/
theorem c10_neighbour_failure_contained :
    (∀ (env : CollectorEnv) (h : String), env.getById h = Except.error () →
      fetchChunkByHash env h = none) ∧
    (∀ sel : Selected, addChunk sel none = sel) ∧
    (∀ (env : CollectorEnv) (hits : List Hit) (hit : Hit), hit ∈ hits →
      ∃ c ∈ expandChunksToTokenBudget env hits, c.chunkHash = hit.source.chunkHash) ∧
    (expandChunksToTokenBudget env10 [hit2]).map (fun c => c.chunkSequence) = [2, 3] ∧
    buildPromptGo docsById4 (expandChunksToTokenBudget env10 [hit2]) none 1 =
      Except.ok ["\n### Book: Doctrine Compendium\n",
                 "--- chunk 1 ---", "t2", "--- end chunk 1 ---\n",
                 "--- chunk 2 ---", "t3", "--- end chunk 2 ---\n"] := by
  refine ⟨?_, ?_, ?_, by decide, rfl⟩
  · intro env h hh
    rw [fetchChunkByHash, hh]
  · intro sel
    rfl
  · intro env hits hit hm
    exact expandChunks_contains_primary env hits hit hm

/-- Witness for C10, applying the containment facts at the scenario with
the failing lookup of chunk 1. -/
theorem c10_neighbour_failure_contained_witness :
    fetchChunkByHash env10 "h1" = none ∧
    (∃ c ∈ expandChunksToTokenBudget env10 [hit2], c.chunkHash = hit2.source.chunkHash) :=
  ⟨c10_neighbour_failure_contained.1 env10 "h1" rfl,
   c10_neighbour_failure_contained.2.2.1 env10 [hit2] hit2 (List.mem_cons_self _ _)⟩

end FutureCompass


